import Mathlib

/-!
Shallow embedding of the delivery-correlation and event-draining subsystem of
`src/producer/base_producer.rs` (rust-rdkafka): the token codec used by
`send_copy` and the delivery callback, the `BaseProducer` operations, the
`delivery_cb` trampoline, and the `ThreadedProducer` lifecycle (background
polling loop, `stop`, `Drop`). Engine primitives (`rd_kafka_poll`,
`rd_kafka_producev`, `rd_kafka_flush`, `rd_kafka_outq_len`) are outside the
sources and are modelled from the spec, as are the token encoding of the
no-op context and the construction of the delivery result (`util.rs` and
`message.rs` are outside the sources).
-/

namespace RdKafka

/-- A delivery token codec for token type `τ`: `into_ptr` consumes the token
and produces a raw, type-erased handle (`none` models the null pointer);
`from_ptr` reconstructs the token from such a handle. This mirrors the
`IntoOpaque`-style bound on the producer context's token type. -/
structure TokenCodec (τ : Type) where
  into_ptr : τ → Option τ
  from_ptr : Option τ → τ

/-- Modelled from the spec: the token codec of the no-op producer context
(the unit token of `EmptyProducerContext`); its encoding is the null handle
and decoding any handle yields the unit value (`util.rs`, outside the
sources, encodes `()` as a null pointer). -/
def unitCodec : TokenCodec Unit :=
  ⟨fun _ => none, fun _ => ()⟩

/-- Modelled from the spec: a codec for tokens carried behind a box — the
encoding is always a non-null handle and decoding returns the boxed value. -/
def boxCodec : TokenCodec Nat :=
  ⟨fun t => some t, fun h => h.getD 0⟩

/-- Synchronous producer errors: `Nul` models the `CString::new` failure on a
topic name with an interior zero byte (converted by the early return in
`send_copy`); `MessageProduction c` wraps the engine error code returned by
the submission primitive. -/
inductive KafkaError where
  | Nul : KafkaError
  | MessageProduction : Nat → KafkaError
deriving DecidableEq, Repr

/-- `CString::new` applied to the topic name bytes: fails with a NUL error
exactly when the byte sequence contains a zero byte. -/
def cstringNew (bytes : List Nat) : Except KafkaError (List Nat) :=
  if 0 ∈ bytes then Except.error KafkaError.Nul else Except.ok bytes

/-- Modelled from the spec: the state of the opaque transport engine behind
the producer handle. `ready` counts finalized outcomes waiting to be drained,
`unresolved` counts accepted messages whose outcome is not yet finalized, and
`rejectCode` (when present) makes the next submission fail synchronously with
that error code (local queue full, unknown topic, malformed arguments on the
engine side). -/
structure EngineM where
  ready : Nat
  unresolved : Nat
  rejectCode : Option Nat
deriving DecidableEq, Repr

/-- Modelled from the spec: the approximate count of accepted-but-unresolved
messages held by the engine. -/
def inFlight (e : EngineM) : Nat := e.ready + e.unresolved

/-- Modelled from the spec: the engine's event-draining primitive
(`rd_kafka_poll`): waits up to the timeout, serves every outcome that is
ready, and returns the number of events served. -/
def nativePoll (e : EngineM) (_timeoutMs : Option Nat) : Int × EngineM :=
  (Int.ofNat e.ready, { e with ready := 0 })

/-- Modelled from the spec: the engine's submission primitive
(`rd_kafka_producev`): either rejects the message synchronously with an error
code, leaving the engine unchanged, or accepts it, adding one unresolved
message. -/
def nativeProducev (e : EngineM) (_topic : List Nat) (_partition : Int)
    (_payload : Option (List Nat)) (_key : Option (List Nat))
    (_timestamp : Int) : Option Nat × EngineM :=
  match e.rejectCode with
  | some c => (some c, e)
  | none => (none, { e with unresolved := e.unresolved + 1 })

/-- Modelled from the spec: `rd_kafka_flush` drains events until the
in-flight count reaches zero or the timeout elapses (one outcome resolved per
elapsed unit of budget; an absent timeout blocks until fully drained). -/
def nativeFlush (e : EngineM) (timeoutMs : Option Nat) : EngineM :=
  match timeoutMs with
  | none => { e with ready := 0, unresolved := 0 }
  | some ms =>
      let drained := min e.ready ms
      { e with ready := e.ready - drained, unresolved := e.unresolved - (ms - drained) }

/-- Modelled from the spec: `rd_kafka_outq_len`, the engine's in-flight
counter. -/
def nativeOutqLen (e : EngineM) : Int := Int.ofNat (inFlight e)

/-- Record of one `send_copy` call: the raw handle produced by `into_ptr`
(`none` is the null pointer), how many times `from_ptr` was invoked on the
synchronous error path, and the returned result. -/
structure SendTrace (τ : Type) where
  encoded : Option τ
  decodes : Nat
  result : Except KafkaError Unit

/-- `BaseProducer::send_copy`: reads out payload and key bytes, encodes the
token into a raw handle, converts the topic name to a C string (an interior
NUL byte returns the error early, via `?`), then hands the message to the
engine. On a synchronous engine error the token handle is decoded — but only
when it is non-null — and the error is returned. Faithful to the source
order: the token is encoded before the topic-name conversion. -/
def BaseProducer.send_copy {τ : Type} (codec : TokenCodec τ) (e : EngineM)
    (topic_name : List Nat) (partition : Option Int)
    (payload : Option (List Nat)) (key : Option (List Nat))
    (tok : τ) (timestamp : Option Int) : SendTrace τ × EngineM :=
  let payload_ptr := payload
  let key_ptr := key
  let ptr := codec.into_ptr tok
  match cstringNew topic_name with
  | Except.error err => ({ encoded := ptr, decodes := 0, result := Except.error err }, e)
  | Except.ok tc =>
      match nativeProducev e tc (partition.getD (-1)) payload_ptr key_ptr (timestamp.getD 0) with
      | (some c, e1) =>
          ({ encoded := ptr,
             decodes := if ptr.isSome then 1 else 0,
             result := Except.error (KafkaError.MessageProduction c) }, e1)
      | (none, e1) =>
          ({ encoded := ptr, decodes := 0, result := Except.ok () }, e1)

/-- `BaseProducer::poll`: invokes the engine's event-draining primitive and
returns its event count. -/
def BaseProducer.poll (e : EngineM) (timeoutMs : Option Nat) : Int × EngineM :=
  nativePoll e timeoutMs

/-- `BaseProducer::flush`: invokes the engine's flush primitive. -/
def BaseProducer.flush (e : EngineM) (timeoutMs : Option Nat) : Unit × EngineM :=
  ((), nativeFlush e timeoutMs)

/-- `BaseProducer::in_flight_count`: reads the engine's in-flight counter. -/
def BaseProducer.in_flight_count (e : EngineM) : Int := nativeOutqLen e

/-- The number of outcomes drained during one poll call: the drop in the
in-flight count across the call. -/
def eventsProcessed (e : EngineM) (timeoutMs : Option Nat) : Int :=
  Int.ofNat (inFlight e - inFlight (nativePoll e timeoutMs).snd)

/-- The raw engine message handed to the delivery callback: an error code
(zero means success), the raw token handle attached at submission time, and
the payload bytes, all owned by the engine. -/
structure RDKafkaMessageM (τ : Type) where
  err : Nat
  priv : Option τ
  payload : List Nat

/-- Modelled from the spec: the Delivery Outcome (`DeliveryResult` of
`message.rs`, outside the sources) — success carries the borrowed message,
failure carries the error code and the borrowed message. -/
inductive DeliveryReport (τ : Type) where
  | success : RDKafkaMessageM τ → DeliveryReport τ
  | failure : Nat → RDKafkaMessageM τ → DeliveryReport τ

/-- Modelled from the spec: `BorrowedMessage::from_dr_callback` builds the
outcome value from the raw message, valid only for the duration of the
callback. -/
def from_dr_callback {τ : Type} (m : RDKafkaMessageM τ) : DeliveryReport τ :=
  if m.err = 0 then DeliveryReport.success m else DeliveryReport.failure m.err m

/-- One observable step of the delivery callback body. The `free` actions are
never emitted by the callback: the engine retains ownership of both the
message buffer and the producer context. -/
inductive CbAction (τ : Type) where
  | takeContext : CbAction τ
  | decodeToken : CbAction τ
  | invokeHandler : DeliveryReport τ → τ → CbAction τ
  | forgetContext : CbAction τ
  | freeMessage : CbAction τ
  | forgetMessage : CbAction τ
  | freeContext : CbAction τ

/-- `delivery_cb`, as the trace of its body in source order: borrow the
producer context from the raw handle, decode the token from the message's raw
handle, build the delivery result borrowing the engine-owned message, invoke
the context's delivery handler with the result and the token, then release
the context borrow and relinquish the message without freeing either. -/
def delivery_cb {τ : Type} (codec : TokenCodec τ) (m : RDKafkaMessageM τ) :
    List (CbAction τ) :=
  let tok := codec.from_ptr m.priv
  let res := from_dr_callback m
  [CbAction.takeContext, CbAction.decodeToken, CbAction.invokeHandler res tok,
   CbAction.forgetContext, CbAction.forgetMessage]

/-- Whether a callback action is a token decode. -/
def isDecode {τ : Type} : CbAction τ → Bool
  | CbAction.decodeToken => true
  | _ => false

/-- Whether a callback action frees the engine-owned message buffer. -/
def isFreeMsg {τ : Type} : CbAction τ → Bool
  | CbAction.freeMessage => true
  | _ => false

/-- `ThreadedProducer` lifecycle state: the shared stop flag and the stored
join handle of the polling thread (`none` when no thread is stored). The
boolean carried by a handle records whether joining that thread succeeds. -/
structure TPState where
  should_stop : Bool
  handle : Option Bool
deriving DecidableEq, Repr

/-- Observable steps of `ThreadedProducer::stop`: storing `true` into the
stop flag, joining the stored thread (with its success bit), and logging a
join failure as a warning. -/
inductive StopEvent where
  | setFlag : StopEvent
  | joined : Bool → StopEvent
  | logWarn : StopEvent
deriving DecidableEq, Repr

/-- `ThreadedProducer::start`: spawns the polling thread and stores its join
handle. It is not public: the constructor invokes it exactly once. -/
def TPState.start (s : TPState) (h : Bool) : TPState :=
  { s with handle := some h }

/-- The `ThreadedProducer` constructor (`from_config_and_context`): a fresh
state with a cleared stop flag and no handle, then `start`. -/
def TPState.make (h : Bool) : TPState :=
  TPState.start { should_stop := false, handle := none } h

/-- `ThreadedProducer::stop`: when a join handle is stored, set the stop
flag, take the handle out of the store and join it, logging a join failure as
a warning instead of propagating it; when no handle is stored, do nothing.
Returns the new state and the events of the call in order. -/
def TPState.stop (s : TPState) : TPState × List StopEvent :=
  match s.handle with
  | none => (s, [])
  | some h =>
      ({ should_stop := true, handle := none },
       [StopEvent.setFlag, StopEvent.joined h] ++
         (if h then [] else [StopEvent.logWarn]))

/-- `Drop for ThreadedProducer`: calls `stop` unconditionally. -/
def TPState.teardown (s : TPState) : TPState × List StopEvent := TPState.stop s

/-- Whether a stop event is a thread join. -/
def isJoin : StopEvent → Bool
  | StopEvent.joined _ => true
  | _ => false

/-- One iteration's exit decision in the polling-thread loop: break exactly
when the poll drained zero events and the stop flag was observed set; with
any drained events the flag is not even consulted. -/
def loopStep (n : Int) (stopFlag : Bool) : Bool :=
  if n = 0 then stopFlag else false

/-- The polling-thread loop over a finite trace of per-iteration
observations (the poll's event count, the stop-flag value at that
iteration): `some i` means the loop exits at iteration `i`, `none` means the
loop is still running after the whole trace. -/
def runLoop : List (Int × Bool) → Option Nat
  | [] => none
  | ob :: rest =>
      if loopStep ob.fst ob.snd then some 0
      else Option.map Nat.succ (runLoop rest)

/-- `ThreadedProducer::send_copy`: delegates to the inner producer's
`send_copy`, mapping the wrapper's argument order (timestamp before token)
onto the inner producer's (token before timestamp). -/
def ThreadedProducer.send_copy {τ : Type} (codec : TokenCodec τ) (e : EngineM)
    (topic : List Nat) (partition : Option Int)
    (payload : Option (List Nat)) (key : Option (List Nat))
    (timestamp : Option Int) (tok : τ) : SendTrace τ × EngineM :=
  BaseProducer.send_copy codec e topic partition payload key tok timestamp

/-- `ThreadedProducer::poll`: calls the inner producer's poll and discards
its event count, returning the unit value. -/
def ThreadedProducer.poll (e : EngineM) (timeoutMs : Option Nat) : Unit × EngineM :=
  ((), (BaseProducer.poll e timeoutMs).snd)

/-- `ThreadedProducer::flush`: delegates to the inner producer's flush. -/
def ThreadedProducer.flush (e : EngineM) (timeoutMs : Option Nat) : Unit × EngineM :=
  BaseProducer.flush e timeoutMs

/-- `ThreadedProducer::in_flight_count`: delegates to the inner producer. -/
def ThreadedProducer.in_flight_count (e : EngineM) : Int :=
  BaseProducer.in_flight_count e

/-- The background-loop state of the wrapper, as named by the spec. -/
inductive LoopState where
  | NotStarted : LoopState
  | Running : LoopState
  | StopRequested : LoopState
  | Stopped : LoopState
deriving DecidableEq, Repr

/-- The background-loop state read off a `TPState`: a stored handle means the
loop is alive (running, or stop-requested once the flag is set); no handle
means not yet started or fully stopped according to the flag. -/
def loopState (s : TPState) : LoopState :=
  match s.handle, s.should_stop with
  | some _, false => LoopState.Running
  | some _, true => LoopState.StopRequested
  | none, false => LoopState.NotStarted
  | none, true => LoopState.Stopped

/-- Forward position of a background-loop state along
NotStarted → Running → StopRequested → Stopped. -/
def LoopState.rank : LoopState → Nat
  | LoopState.NotStarted => 0
  | LoopState.Running => 1
  | LoopState.StopRequested => 2
  | LoopState.Stopped => 3

/-- The operations invocable on a constructed wrapper instance: `stop`, the
teardown of `Drop`, and the four delegating public operations (`start` is
private and is invoked exactly once, by the constructor). -/
inductive TPOp where
  | stopOp : TPOp
  | teardownOp : TPOp
  | sendOp : List Nat → Option Int → Option (List Nat) → Option (List Nat) →
      Option Int → Nat → TPOp
  | pollOp : Option Nat → TPOp
  | flushOp : Option Nat → TPOp
  | inFlightOp : TPOp

/-- The full wrapper state: lifecycle state plus the shared engine. -/
structure WrapperState where
  tp : TPState
  eng : EngineM

/-- Apply one wrapper operation: `stop`/teardown act on the lifecycle state;
the delegating operations act on the shared engine only. -/
def applyOp (s : WrapperState) : TPOp → WrapperState
  | TPOp.stopOp => { s with tp := (TPState.stop s.tp).fst }
  | TPOp.teardownOp => { s with tp := (TPState.teardown s.tp).fst }
  | TPOp.sendOp topic part pl k ts tok =>
      { s with eng := (ThreadedProducer.send_copy boxCodec s.eng topic part pl k ts tok).snd }
  | TPOp.pollOp t => { s with eng := (ThreadedProducer.poll s.eng t).snd }
  | TPOp.flushOp t => { s with eng := (ThreadedProducer.flush s.eng t).snd }
  | TPOp.inFlightOp => s

/-- Apply a sequence of wrapper operations in order. -/
def applyOps (s : WrapperState) : List TPOp → WrapperState
  | [] => s
  | op :: ops => applyOps (applyOp s op) ops

/-- A flush call completed successfully: the in-flight count can reach zero
within the timeout (an absent timeout blocks until fully drained). -/
def flushSucceeded (e : EngineM) (timeoutMs : Option Nat) : Bool :=
  match timeoutMs with
  | none => true
  | some ms => inFlight e ≤ ms

/-- An idle engine that accepts the next submission. -/
def engAccept : EngineM :=
  { ready := 0, unresolved := 0, rejectCode := none }

/-- An engine whose next submission is rejected synchronously with error
code 5 (for example, local queue at capacity). -/
def engReject : EngineM :=
  { ready := 0, unresolved := 0, rejectCode := some 5 }

/-- The loop exit decision is true exactly when the poll count is zero and
the stop flag was observed set. -/
theorem loopStep_eq_true_iff (n : Int) (s : Bool) :
    loopStep n s = true ↔ (n = 0 ∧ s = true) := by
  unfold loopStep
  by_cases h : n = 0 <;> simp [h]

/-- C1: the claim fails on the code. Failing input: a topic name with an
interior NUL byte (bytes 97, 0, 98) and a boxed token 7 whose encoding is a
non-null handle. `send_copy` returns a synchronous error — the `CString`
conversion failure — yet the token handle, encoded before the conversion, is
never decoded on this early-return path: the token leaks, while the claim
(and the intent of the error branch, which reclaims the handle on the engine
rejection path) requires every synchronous-error return to decode the token
and give it back. -/
theorem C1_nul_topic_leaks_token :
    (BaseProducer.send_copy boxCodec engAccept [97, 0, 98] none none none 7 none).fst.result
        = Except.error KafkaError.Nul ∧
    (BaseProducer.send_copy boxCodec engAccept [97, 0, 98] none none none 7 none).fst.encoded
        = some 7 ∧
    (BaseProducer.send_copy boxCodec engAccept [97, 0, 98] none none none 7 none).fst.decodes
        = 0 :=
  ⟨rfl, rfl, rfl⟩

/-- C2: on every invocation the delivery trampoline decodes the token from
the message's raw handle exactly once, invokes the context's delivery
handler with the outcome built (by `from_dr_callback`, borrowing the
engine-owned message) and that token, and returns relinquishing the message
to the engine without freeing it. -/
theorem C2_trampoline_trace {τ : Type} (codec : TokenCodec τ) (m : RDKafkaMessageM τ) :
    delivery_cb codec m =
      [CbAction.takeContext, CbAction.decodeToken,
       CbAction.invokeHandler (from_dr_callback m) (codec.from_ptr m.priv),
       CbAction.forgetContext, CbAction.forgetMessage] ∧
    List.countP isDecode (delivery_cb codec m) = 1 ∧
    List.countP isFreeMsg (delivery_cb codec m) = 0 ∧
    CbAction.forgetMessage ∈ delivery_cb codec m ∧
    CbAction.freeMessage ∉ delivery_cb codec m := by
  refine ⟨rfl, ?_, ?_, ?_, ?_⟩ <;>
    simp [delivery_cb, isDecode, isFreeMsg]

/-- C6 counterexample: the wrapper's poll does not return the number of
events processed — it returns the unit value, from which no reading can
recover the count: two engines whose polls process different counts give the
wrapper's poll the same return value. -/
theorem C6_wrapper_poll_count_lost :
    ¬ ∃ f : Unit → Int, ∀ (e : EngineM) (t : Option Nat),
        f (ThreadedProducer.poll e t).fst = (BaseProducer.poll e t).fst := by
  rintro ⟨f, hf⟩
  have h1 := hf { ready := 1, unresolved := 0, rejectCode := none } none
  have h2 := hf { ready := 2, unresolved := 0, rejectCode := none } none
  rw [h1] at h2
  exact absurd h2 (by decide)

/-- C6 (amended): `BaseProducer::poll` returns exactly the number of events
processed during the call (zero when none were ready); `ThreadedProducer::
poll` performs the same inner poll — identical engine effect — but discards
the count and returns the unit value. -/
theorem C6_poll_returns_count (e : EngineM) (t : Option Nat) :
    (BaseProducer.poll e t).fst = eventsProcessed e t ∧
    (ThreadedProducer.poll e t).snd = (BaseProducer.poll e t).snd ∧
    (ThreadedProducer.poll e t).fst = () := by
  refine ⟨?_, rfl, rfl⟩
  simp [BaseProducer.poll, eventsProcessed, nativePoll, inFlight]

/-- C7 counterexample: the wrapper's poll does not produce the same result
as the inner producer's poll at the same input — at two concrete engines the
inner results differ (3 and 5 events) while the wrapper's results are the
same unit value. -/
theorem C7_poll_not_same_result :
    (BaseProducer.poll { ready := 3, unresolved := 0, rejectCode := none } none).fst ≠
      (BaseProducer.poll { ready := 5, unresolved := 0, rejectCode := none } none).fst ∧
    (ThreadedProducer.poll { ready := 3, unresolved := 0, rejectCode := none } none).fst =
      (ThreadedProducer.poll { ready := 5, unresolved := 0, rejectCode := none } none).fst :=
  ⟨by decide, rfl⟩

/-- C7 (amended): every wrapper operation delegates to the inner producer
with the identical engine effect; `send_copy` (with the wrapper's argument
order mapped onto the inner producer's), `flush` and `in_flight_count` also
produce the very result of the inner call, while `poll` performs the inner
call but discards its count, returning the unit value. -/
theorem C7_wrapper_delegates {τ : Type} (codec : TokenCodec τ) (e : EngineM)
    (topic : List Nat) (part : Option Int) (pl k : Option (List Nat))
    (ts : Option Int) (tok : τ) (t : Option Nat) :
    ThreadedProducer.send_copy codec e topic part pl k ts tok
        = BaseProducer.send_copy codec e topic part pl k tok ts ∧
    ThreadedProducer.flush e t = BaseProducer.flush e t ∧
    ThreadedProducer.in_flight_count e = BaseProducer.in_flight_count e ∧
    (ThreadedProducer.poll e t).snd = (BaseProducer.poll e t).snd ∧
    (ThreadedProducer.poll e t).fst = () :=
  ⟨rfl, rfl, rfl, rfl, rfl⟩

/-- C9: a stop call joins at most one thread; after it returns the handle
store is empty, and a further `stop` — or the unconditional `stop` from the
teardown — on the resulting state is a no-op producing no events: it neither
joins nor blocks. -/
theorem C9_stop_joins_at_most_once (s : TPState) :
    (TPState.stop s).fst.handle = none ∧
    List.countP isJoin (TPState.stop s).snd ≤ 1 ∧
    TPState.stop (TPState.stop s).fst = ((TPState.stop s).fst, []) ∧
    TPState.teardown (TPState.stop s).fst = ((TPState.stop s).fst, []) := by
  obtain ⟨fl, hd⟩ := s
  rcases hd with _ | hb
  · cases fl <;> decide
  · cases hb <;> cases fl <;> decide

/-- C10: on the synchronous engine-rejection path of `send_copy` (the topic
name converts cleanly, the engine rejects), the encoded token handle is
decoded exactly when it is non-null and never more than once; with the unit
codec, whose encoding is the null handle, no decode is attempted. -/
theorem C10_decode_only_nonnull {τ : Type} (codec : TokenCodec τ) (tok : τ)
    (topic : List Nat) (part : Option Int) (pl k : Option (List Nat))
    (ts : Option Int) (hnul : ¬ 0 ∈ topic) :
    ((BaseProducer.send_copy codec engReject topic part pl k tok ts).fst.decodes
        = if (codec.into_ptr tok).isSome then 1 else 0) ∧
    (BaseProducer.send_copy codec engReject topic part pl k tok ts).fst.decodes ≤ 1 ∧
    (BaseProducer.send_copy unitCodec engReject topic part pl k () ts).fst.decodes = 0 := by
  unfold BaseProducer.send_copy cstringNew
  simp only [if_neg hnul]
  refine ⟨rfl, ?_, rfl⟩
  by_cases hp : (codec.into_ptr tok).isSome <;> simp [engReject, nativeProducev, hp]

/-- C10 witness: the decode-iff-non-null trace at a concrete rejected
submission. -/
theorem C10_decode_only_nonnull_witness :
    ((BaseProducer.send_copy boxCodec engReject [111] none none none 7 none).fst.decodes
        = if (boxCodec.into_ptr 7).isSome then 1 else 0) ∧
    (BaseProducer.send_copy boxCodec engReject [111] none none none 7 none).fst.decodes ≤ 1 ∧
    (BaseProducer.send_copy unitCodec engReject [111] none none none () none).fst.decodes = 0 :=
  C10_decode_only_nonnull boxCodec 7 [111] none none none none (by decide)

/-- C3: the polling loop exits at iteration `i` exactly when that
iteration's poll drained zero events with the stop flag observed set, and no
earlier iteration did both — in every other case the loop continues, so all
iterations that drain events (a pending burst) run before a stop request is
honored. -/
theorem C3_loop_exit_iff (obs : List (Int × Bool)) (i : Nat) :
    runLoop obs = some i ↔
      ((∃ p, obs[i]? = some p ∧ p.fst = 0 ∧ p.snd = true) ∧
       ∀ j, j < i → ∀ p, obs[j]? = some p → ¬(p.fst = 0 ∧ p.snd = true)) := by
  induction obs generalizing i with
  | nil => simp [runLoop]
  | cons ob rest ih =>
      unfold runLoop
      by_cases hc : ob.fst = 0 ∧ ob.snd = true
      · rw [if_pos ((loopStep_eq_true_iff ob.fst ob.snd).mpr hc)]
        cases i with
        | zero =>
            constructor
            · intro _
              exact ⟨⟨ob, List.getElem?_cons_zero, hc.1, hc.2⟩,
                fun j hj => absurd hj (Nat.not_lt_zero j)⟩
            · intro _
              rfl
        | succ n =>
            constructor
            · intro h
              exact absurd h (by simp)
            · rintro ⟨_, hall⟩
              exact absurd hc (hall 0 (Nat.succ_pos n) ob List.getElem?_cons_zero)
      · rw [if_neg (fun h => hc ((loopStep_eq_true_iff ob.fst ob.snd).mp h))]
        cases i with
        | zero =>
            constructor
            · intro h
              rcases Option.map_eq_some'.mp h with ⟨a, _, ha⟩
              exact absurd ha (Nat.succ_ne_zero a)
            · rintro ⟨⟨p, hp, h0, h1⟩, _⟩
              rw [List.getElem?_cons_zero] at hp
              cases Option.some.inj hp
              exact absurd ⟨h0, h1⟩ hc
        | succ n =>
            constructor
            · intro h
              rcases Option.map_eq_some'.mp h with ⟨a, hra, ha⟩
              have hk : a = n := Nat.succ.inj ha
              subst hk
              rcases (ih a).mp hra with ⟨⟨p, hp, h0, h1⟩, hall⟩
              refine ⟨⟨p, ?_, h0, h1⟩, ?_⟩
              · rw [List.getElem?_cons_succ]
                exact hp
              · intro j hj q hq
                cases j with
                | zero =>
                    rw [List.getElem?_cons_zero] at hq
                    cases Option.some.inj hq
                    exact hc
                | succ m =>
                    rw [List.getElem?_cons_succ] at hq
                    exact hall m (Nat.lt_of_succ_lt_succ hj) q hq
            · rintro ⟨⟨p, hp, h0, h1⟩, hall⟩
              rw [List.getElem?_cons_succ] at hp
              have hr : runLoop rest = some n := by
                apply (ih n).mpr
                refine ⟨⟨p, hp, h0, h1⟩, ?_⟩
                intro j hj q hq
                refine hall (j + 1) (Nat.succ_lt_succ hj) q ?_
                rw [List.getElem?_cons_succ]
                exact hq
              rw [hr]
              rfl

/-- C4: when a join handle is stored, `stop` produces exactly the event
sequence flag-set followed by join (logging one warning after a failed join)
and ends with the flag set and the handle store emptied — even a failed join
is absorbed, the call still completing with the cleared state; and the
teardown of `Drop` calls `stop` unconditionally on every state. -/
theorem C4_stop_protocol (s : TPState) (h : Bool) (hs : s.handle = some h) :
    TPState.stop s =
      ({ should_stop := true, handle := none },
       [StopEvent.setFlag, StopEvent.joined h] ++
         (if h then [] else [StopEvent.logWarn])) ∧
    (∀ s1, TPState.teardown s1 = TPState.stop s1) := by
  refine ⟨?_, fun s1 => rfl⟩
  obtain ⟨fl, hd⟩ := s
  cases hd with
  | none => cases hs
  | some h2 =>
      cases hs
      rfl

/-- C4 witness: the stop protocol at a concrete state holding a thread whose
join fails. -/
theorem C4_stop_protocol_witness :
    TPState.stop { should_stop := false, handle := some false } =
      ({ should_stop := true, handle := none },
       [StopEvent.setFlag, StopEvent.joined false] ++
         (if false then [] else [StopEvent.logWarn])) ∧
    (∀ s1, TPState.teardown s1 = TPState.stop s1) :=
  C4_stop_protocol { should_stop := false, handle := some false } false rfl

/-- C5: construction takes the loop state to Running; every operation
reachable on a constructed wrapper moves the loop state only forward along
NotStarted → Running → StopRequested → Stopped; and from Stopped, no
sequence of operations leaves Stopped — in particular none returns it to
Running. -/
theorem C5_loop_state_forward :
    (∀ h, loopState (TPState.make h) = LoopState.Running) ∧
    (∀ s op, (loopState s.tp).rank ≤ (loopState (applyOp s op).tp).rank) ∧
    (∀ s ops, loopState s.tp = LoopState.Stopped →
        loopState (applyOps s ops).tp = LoopState.Stopped) := by
  refine ⟨fun h => rfl, ?_, ?_⟩
  · intro s op
    obtain ⟨⟨fl, hd⟩, eng⟩ := s
    cases op <;> rcases hd with _ | hb <;> cases fl <;>
      simp [applyOp, TPState.stop, TPState.teardown, loopState, LoopState.rank]
  · intro s ops
    induction ops generalizing s with
    | nil => intro hstop; exact hstop
    | cons op rest ih =>
        intro hstop
        apply ih
        obtain ⟨⟨fl, hd⟩, eng⟩ := s
        rcases hd with _ | hb
        · cases fl with
          | false => simp [loopState] at hstop
          | true =>
              cases op <;>
                simp [applyOp, TPState.stop, TPState.teardown, loopState]
        · cases fl <;> simp [loopState] at hstop

/-- C5 witness: from a Stopped state, a stop, a poll and a teardown leave
the loop state Stopped. -/
theorem C5_loop_state_forward_witness :
    loopState (applyOps { tp := { should_stop := true, handle := none }, eng := engAccept }
        [TPOp.stopOp, TPOp.pollOp none, TPOp.teardownOp]).tp = LoopState.Stopped :=
  C5_loop_state_forward.2.2
    { tp := { should_stop := true, handle := none }, eng := engAccept }
    [TPOp.stopOp, TPOp.pollOp none, TPOp.teardownOp] rfl

/-- C8: draining outcomes (poll, and flush's drain) never increases the
in-flight count; a flush that completed successfully — the count reached
zero within the timeout — leaves it exactly zero; and an accepted submission
is the operation that raises it, by one. -/
theorem C8_in_flight_drain :
    (∀ e t, BaseProducer.in_flight_count (BaseProducer.poll e t).snd
        ≤ BaseProducer.in_flight_count e) ∧
    (∀ e t, BaseProducer.in_flight_count (BaseProducer.flush e t).snd
        ≤ BaseProducer.in_flight_count e) ∧
    (∀ e t, flushSucceeded e t = true →
        BaseProducer.in_flight_count (BaseProducer.flush e t).snd = 0) ∧
    (∀ (τ : Type) (codec : TokenCodec τ) e topic part pl k tok ts,
        (BaseProducer.send_copy codec e topic part pl k tok ts).fst.result = Except.ok () →
        BaseProducer.in_flight_count
            (BaseProducer.send_copy codec e topic part pl k tok ts).snd
          = BaseProducer.in_flight_count e + 1) := by
  refine ⟨?_, ?_, ?_, ?_⟩
  · intro e t
    simp [BaseProducer.in_flight_count, BaseProducer.poll, nativePoll, nativeOutqLen, inFlight]
  · intro e t
    rcases t with _ | ms <;>
      simp [BaseProducer.in_flight_count, BaseProducer.flush, nativeFlush, nativeOutqLen,
        inFlight] <;>
      omega
  · intro e t hsucc
    rcases t with _ | ms
    · simp [BaseProducer.in_flight_count, BaseProducer.flush, nativeFlush, nativeOutqLen,
        inFlight]
    · simp [flushSucceeded, inFlight] at hsucc
      simp [BaseProducer.in_flight_count, BaseProducer.flush, nativeFlush, nativeOutqLen,
        inFlight]
      omega
  · intro τ codec e topic part pl k tok ts hok
    unfold BaseProducer.send_copy at hok ⊢
    rcases hcs : cstringNew topic with err | tc
    · rw [hcs] at hok
      simp at hok
    · rw [hcs] at hok
      unfold nativeProducev at hok ⊢
      rcases hr : e.rejectCode with _ | c
      · rw [hr] at hok
        simp [BaseProducer.in_flight_count, nativeOutqLen, inFlight]
        omega
      · rw [hr] at hok
        simp at hok

/-- C8 witness: a successful flush at a concrete engine leaves the in-flight
count zero. -/
theorem C8_in_flight_drain_witness :
    BaseProducer.in_flight_count
      (BaseProducer.flush { ready := 2, unresolved := 1, rejectCode := none } (some 5)).snd
      = 0 :=
  C8_in_flight_drain.2.2.1 { ready := 2, unresolved := 1, rejectCode := none } (some 5)
    (by decide)

end RdKafka
